import Mathlib

/-!
# Verification of the didkit Sidetree DID-creation core

Shallow embedding of the repository's Rust sources:
* `ssi/ssi-jwk/src/lib.rs` — the JWK key-material model,
* `ssi/did-ion/src/sidetree.rs` — canonicalization, hashing, commitment and
  the `create_existing` Sidetree operation assembler,
* `ssi/did-ion/src/client.rs` — the `SidetreeClient` DID-method implementation,
* `ssi/did-ion/src/lib.rs` — the `DIDIon` DID-method implementation,
* `ssi/ssi-dids/src/lib.rs` — the `DIDMethod` capability contract and errors,
* `cli/src/did.rs` — CLI option folding (`metadata_properties_to_value`).

JSON values (Rust `serde_json::Value`) are modelled by the inductive `Json`
below; objects are ordered lists of fields (a `serde_json::Map` is a `BTreeMap`,
rendered here as its entry list in ascending key order).  Numbers are modelled
as integers, which covers every value the embedded code constructs.  Byte
strings (`&[u8]`, `Vec<u8>`) are `List Nat`, each element < 256.
-/

/-- Model of `serde_json::Value`. -/
inductive Json where
  | null : Json
  | bool (b : Bool) : Json
  | num (n : Int) : Json
  | str (s : String) : Json
  | arr (elems : List Json) : Json
  | obj (fields : List (String × Json)) : Json

mutual

/-- Structural equality of JSON values (`PartialEq` on `serde_json::Value`). -/
def Json.decEq : (a b : Json) → Decidable (a = b)
  | .null, .null => isTrue rfl
  | .bool a, .bool b =>
    if h : a = b then isTrue (by rw [h]) else isFalse (fun he => h (Json.bool.inj he))
  | .num a, .num b =>
    if h : a = b then isTrue (by rw [h]) else isFalse (fun he => h (Json.num.inj he))
  | .str a, .str b =>
    if h : a = b then isTrue (by rw [h]) else isFalse (fun he => h (Json.str.inj he))
  | .arr xs, .arr ys =>
    match Json.decEqList xs ys with
    | isTrue h => isTrue (by rw [h])
    | isFalse h => isFalse (fun he => h (Json.arr.inj he))
  | .obj xs, .obj ys =>
    match Json.decEqFields xs ys with
    | isTrue h => isTrue (by rw [h])
    | isFalse h => isFalse (fun he => h (Json.obj.inj he))
  | .null, .bool _ => isFalse nofun
  | .null, .num _ => isFalse nofun
  | .null, .str _ => isFalse nofun
  | .null, .arr _ => isFalse nofun
  | .null, .obj _ => isFalse nofun
  | .bool _, .null => isFalse nofun
  | .bool _, .num _ => isFalse nofun
  | .bool _, .str _ => isFalse nofun
  | .bool _, .arr _ => isFalse nofun
  | .bool _, .obj _ => isFalse nofun
  | .num _, .null => isFalse nofun
  | .num _, .bool _ => isFalse nofun
  | .num _, .str _ => isFalse nofun
  | .num _, .arr _ => isFalse nofun
  | .num _, .obj _ => isFalse nofun
  | .str _, .null => isFalse nofun
  | .str _, .bool _ => isFalse nofun
  | .str _, .num _ => isFalse nofun
  | .str _, .arr _ => isFalse nofun
  | .str _, .obj _ => isFalse nofun
  | .arr _, .null => isFalse nofun
  | .arr _, .bool _ => isFalse nofun
  | .arr _, .num _ => isFalse nofun
  | .arr _, .str _ => isFalse nofun
  | .arr _, .obj _ => isFalse nofun
  | .obj _, .null => isFalse nofun
  | .obj _, .bool _ => isFalse nofun
  | .obj _, .num _ => isFalse nofun
  | .obj _, .str _ => isFalse nofun
  | .obj _, .arr _ => isFalse nofun

/-- Equality on JSON arrays' element lists. -/
def Json.decEqList : (a b : List Json) → Decidable (a = b)
  | [], [] => isTrue rfl
  | [], _ :: _ => isFalse nofun
  | _ :: _, [] => isFalse nofun
  | x :: xs, y :: ys =>
    match Json.decEq x y with
    | isTrue h1 =>
      match Json.decEqList xs ys with
      | isTrue h2 => isTrue (by rw [h1, h2])
      | isFalse h2 => isFalse (fun he => h2 (List.cons.inj he).2)
    | isFalse h1 => isFalse (fun he => h1 (List.cons.inj he).1)

/-- Equality on JSON objects' field lists. -/
def Json.decEqFields : (a b : List (String × Json)) → Decidable (a = b)
  | [], [] => isTrue rfl
  | [], _ :: _ => isFalse nofun
  | _ :: _, [] => isFalse nofun
  | (k1, v1) :: xs, (k2, v2) :: ys =>
    if hk : k1 = k2 then
      match Json.decEq v1 v2 with
      | isTrue hv =>
        match Json.decEqFields xs ys with
        | isTrue ht => isTrue (by rw [hk, hv, ht])
        | isFalse ht => isFalse (fun he => ht (List.cons.inj he).2)
      | isFalse hv =>
        isFalse (fun he => hv (congrArg Prod.snd (List.cons.inj he).1))
    else isFalse (fun he => hk (congrArg Prod.fst (List.cons.inj he).1))

end

instance : DecidableEq Json := Json.decEq

namespace Json

/-- Field lookup in a JSON object's field list (first occurrence wins, as in
`serde_json::Map::get`). -/
def lookupField : List (String × Json) → String → Option Json
  | [], _ => none
  | (k, v) :: rest, key => if k = key then some v else lookupField rest key

/-- Field lookup on a JSON value: `Value::get` for objects, `None` otherwise. -/
def getKey : Json → String → Option Json
  | .obj fields, key => lookupField fields key
  | _, _ => none

end Json

/-! ## UTF-8 encoding

`str.as_bytes()` on a Rust `String`: the UTF-8 bytes of the string, modelled
character by character from the scalar values. -/

/-- UTF-8 encoding of a single Unicode scalar value. -/
def utf8EncodeScalar (c : Nat) : List Nat :=
  if c < 0x80 then [c]
  else if c < 0x800 then
    [0xC0 + c / 0x40, 0x80 + c % 0x40]
  else if c < 0x10000 then
    [0xE0 + c / 0x1000, 0x80 + (c / 0x40) % 0x40, 0x80 + c % 0x40]
  else
    [0xF0 + c / 0x40000, 0x80 + (c / 0x1000) % 0x40,
     0x80 + (c / 0x40) % 0x40, 0x80 + c % 0x40]

/-- The UTF-8 bytes of a string (`String::as_bytes` in Rust). -/
def utf8Bytes (s : String) : List Nat :=
  s.data.flatMap (fun c => utf8EncodeScalar c.toNat)

/-! ## Base64url encoding without padding

`base64::encode_config(data, base64::URL_SAFE_NO_PAD)`: the URL-safe
alphabet `A–Z a–z 0–9 - _`, no `=` padding. -/

/-- The URL-safe base64 alphabet, as 6-bit-index → character. -/
def base64urlChar (i : Nat) : Char :=
  if i < 26 then Char.ofNat (65 + i)          -- 'A'..'Z'
  else if i < 52 then Char.ofNat (97 + (i - 26)) -- 'a'..'z'
  else if i < 62 then Char.ofNat (48 + (i - 52)) -- '0'..'9'
  else if i = 62 then '-'
  else '_'

/-- Encode byte groups of three into four base64 characters; final groups of
one or two bytes produce two or three characters (no padding). -/
def base64urlGroups : List Nat → List Char
  | [] => []
  | [b0] =>
    [base64urlChar (b0 / 4), base64urlChar (b0 % 4 * 16)]
  | [b0, b1] =>
    [base64urlChar (b0 / 4), base64urlChar (b0 % 4 * 16 + b1 / 16),
     base64urlChar (b1 % 16 * 4)]
  | b0 :: b1 :: b2 :: rest =>
    base64urlChar (b0 / 4) :: base64urlChar (b0 % 4 * 16 + b1 / 16) ::
    base64urlChar (b1 % 16 * 4 + b2 / 64) :: base64urlChar (b2 % 64) ::
    base64urlGroups rest

/-- `base64::encode_config(data, base64::URL_SAFE_NO_PAD)`. -/
def base64urlNoPad (data : List Nat) : String :=
  String.mk (base64urlGroups data)

/-! ## SHA-256

The `sha2` crate's `Sha256` digest, used by `hash_protocol_algorithm` in
`sidetree.rs`.  32-bit words are `Nat` reduced modulo `2^32`. -/

/-- Truncate to a 32-bit word. -/
def w32 (x : Nat) : Nat := x % 4294967296

/-- 32-bit right rotation. -/
def rotr32 (n x : Nat) : Nat := w32 ((x >>> n) ||| (x <<< (32 - n)))

/-- SHA-256 σ₀ (message schedule). -/
def sha256s0 (x : Nat) : Nat := rotr32 7 x ^^^ rotr32 18 x ^^^ (x >>> 3)

/-- SHA-256 σ₁ (message schedule). -/
def sha256s1 (x : Nat) : Nat := rotr32 17 x ^^^ rotr32 19 x ^^^ (x >>> 10)

/-- SHA-256 Σ₀ (compression). -/
def sha256S0 (x : Nat) : Nat := rotr32 2 x ^^^ rotr32 13 x ^^^ rotr32 22 x

/-- SHA-256 Σ₁ (compression). -/
def sha256S1 (x : Nat) : Nat := rotr32 6 x ^^^ rotr32 11 x ^^^ rotr32 25 x

/-- SHA-256 choice function. -/
def sha256Ch (x y z : Nat) : Nat := (x &&& y) ^^^ ((x ^^^ 0xFFFFFFFF) &&& z)

/-- SHA-256 majority function. -/
def sha256Maj (x y z : Nat) : Nat := (x &&& y) ^^^ (x &&& z) ^^^ (y &&& z)

/-- The 64 SHA-256 round constants. -/
def sha256K : List Nat :=
  [1116352408, 1899447441, 3049323471, 3921009573, 961987163,
   1508970993, 2453635748, 2870763221, 3624381080, 310598401,
   607225278, 1426881987, 1925078388, 2162078206, 2614888103,
   3248222580, 3835390401, 4022224774, 264347078, 604807628,
   770255983, 1249150122, 1555081692, 1996064986, 2554220882,
   2821834349, 2952996808, 3210313671, 3336571891, 3584528711,
   113926993, 338241895, 666307205, 773529912, 1294757372,
   1396182291, 1695183700, 1986661051, 2177026350, 2456956037,
   2730485921, 2820302411, 3259730800, 3345764771, 3516065817,
   3600352804, 4094571909, 275423344, 430227734, 506948616,
   659060556, 883997877, 958139571, 1322822218, 1537002063,
   1747873779, 1955562222, 2024104815, 2227730452, 2361852424,
   2428436474, 2756734187, 3204031479, 3329325298]

/-- The SHA-256 initial hash state. -/
def sha256InitH : List Nat :=
  [1779033703, 3144134277, 1013904242, 2773480762,
   1359893119, 2600822924, 528734635, 1541459225]

/-- Big-endian 8-byte encoding of a (64-bit) length. -/
def beBytes8 (n : Nat) : List Nat :=
  [(n >>> 56) % 256, (n >>> 48) % 256, (n >>> 40) % 256, (n >>> 32) % 256,
   (n >>> 24) % 256, (n >>> 16) % 256, (n >>> 8) % 256, n % 256]

/-- SHA-256 padding: `0x80`, zeros to 56 mod 64, then the bit length. -/
def sha256Pad (msg : List Nat) : List Nat :=
  msg ++ 0x80 :: List.replicate ((119 - msg.length % 64) % 64) 0
      ++ beBytes8 (8 * msg.length)

/-- Group bytes into big-endian 32-bit words. -/
def beWords : List Nat → List Nat
  | b0 :: b1 :: b2 :: b3 :: rest =>
    ((b0 <<< 24) + (b1 <<< 16) + (b2 <<< 8) + b3) :: beWords rest
  | _ => []

/-- Extend the message schedule by `n` further words; the accumulator holds
the schedule so far in reverse. -/
def sha256ExtendRev : Nat → List Nat → List Nat
  | 0, wrev => wrev
  | n + 1, wrev =>
    let next := w32 (sha256s1 (wrev.getD 1 0) + wrev.getD 6 0 +
                     sha256s0 (wrev.getD 14 0) + wrev.getD 15 0)
    sha256ExtendRev n (next :: wrev)

/-- One SHA-256 compression round on the eight-word working state. -/
def sha256Round (st : List Nat) (kw : Nat × Nat) : List Nat :=
  match st with
  | [a, b, c, d, e, f, g, h] =>
    let t1 := w32 (h + sha256S1 e + sha256Ch e f g + kw.1 + kw.2)
    let t2 := w32 (sha256S0 a + sha256Maj a b c)
    [w32 (t1 + t2), a, b, c, w32 (d + t1), e, f, g]
  | other => other

/-- Compress one 64-byte block into the hash state. -/
def sha256Compress (st : List Nat) (block : List Nat) : List Nat :=
  let ws := (sha256ExtendRev 48 (beWords block).reverse).reverse
  let out := (sha256K.zip ws).foldl sha256Round st
  List.zipWith (fun x y => w32 (x + y)) st out

/-- Compress `n` consecutive blocks of the padded message. -/
def sha256Blocks : Nat → List Nat → List Nat → List Nat
  | 0, st, _ => st
  | n + 1, st, bytes => sha256Blocks n (sha256Compress st (bytes.take 64)) (bytes.drop 64)

/-- SHA-256 of a byte string (the `sha2` crate's `Sha256` digest). -/
def sha256 (msg : List Nat) : List Nat :=
  let padded := sha256Pad msg
  let final := sha256Blocks (padded.length / 64) sha256InitH padded
  final.flatMap (fun w => [(w >>> 24) % 256, (w >>> 16) % 256, (w >>> 8) % 256, w % 256])

/-! ## JSON Canonicalization Scheme (JCS)

`serde_jcs::to_string`: minimal JSON with object keys sorted by UTF-16 code
units (RFC 8785).  String escaping follows `serde_json`: `\"`, `\\`, `\b`,
`\t`, `\n`, `\f`, `\r`, and `\u00XX` (lowercase hex) for other control
characters.  Numbers, modelled as integers, render in plain decimal. -/

/-- Lowercase hexadecimal digit. -/
def hexDigitChar (n : Nat) : Char :=
  if n < 10 then Char.ofNat (48 + n) else Char.ofNat (87 + n)

/-- JSON string escaping of one character (`serde_json`'s escape table). -/
def jsonEscapeChar (c : Char) : List Char :=
  if c = '"' then ['\\', '"']
  else if c = '\\' then ['\\', '\\']
  else if c.toNat = 0x08 then ['\\', 'b']
  else if c.toNat = 0x09 then ['\\', 't']
  else if c.toNat = 0x0A then ['\\', 'n']
  else if c.toNat = 0x0C then ['\\', 'f']
  else if c.toNat = 0x0D then ['\\', 'r']
  else if c.toNat < 0x20 then
    ['\\', 'u', '0', '0', hexDigitChar (c.toNat / 16), hexDigitChar (c.toNat % 16)]
  else [c]

/-- Render a JSON string literal, quotes and escapes included. -/
def jsonRenderString (s : String) : String :=
  "\"" ++ String.mk (s.data.flatMap jsonEscapeChar) ++ "\""

/-- The UTF-16 code units of a string (JCS sorts object keys by these). -/
def utf16Units (s : String) : List Nat :=
  s.data.flatMap (fun c =>
    if c.toNat < 0x10000 then [c.toNat]
    else [0xD800 + (c.toNat - 0x10000) / 0x400, 0xDC00 + (c.toNat - 0x10000) % 0x400])

/-- Strict lexicographic order on code-unit lists. -/
def lexLtUnits : List Nat → List Nat → Bool
  | [], [] => false
  | [], _ :: _ => true
  | _ :: _, [] => false
  | x :: xs, y :: ys => if x < y then true else if y < x then false else lexLtUnits xs ys

/-- JCS key order: UTF-16 code-unit lexicographic comparison. -/
def jcsKeyLt (a b : String) : Bool := lexLtUnits (utf16Units a) (utf16Units b)

/-- Insert one rendered field into a key-sorted rendered-field list. -/
def jcsInsertField (p : String × String) : List (String × String) → List (String × String)
  | [] => [p]
  | q :: rest => if jcsKeyLt q.1 p.1 then q :: jcsInsertField p rest else p :: q :: rest

/-- Sort rendered fields by JCS key order (insertion sort). -/
def jcsSortFields : List (String × String) → List (String × String)
  | [] => []
  | p :: rest => jcsInsertField p (jcsSortFields rest)

/-- Comma-join rendered items. -/
def commaJoin : List String → String
  | [] => ""
  | [x] => x
  | x :: rest => x ++ "," ++ commaJoin rest

mutual

/-- Render a JSON value in JCS canonical form (`serde_jcs::to_string`). -/
def jcsRender : Json → String
  | .null => "null"
  | .bool true => "true"
  | .bool false => "false"
  | .num n => toString n
  | .str s => jsonRenderString s
  | .arr xs => "[" ++ commaJoin (jcsRenderList xs) ++ "]"
  | .obj fields =>
    "\x7b" ++
      commaJoin ((jcsSortFields (jcsRenderFields fields)).map
        (fun p => jsonRenderString p.1 ++ ":" ++ p.2)) ++
    "\x7d"

/-- Render each array element. -/
def jcsRenderList : List Json → List String
  | [] => []
  | x :: rest => jcsRender x :: jcsRenderList rest

/-- Render each object field's value, keeping its key. -/
def jcsRenderFields : List (String × Json) → List (String × String)
  | [] => []
  | (k, v) :: rest => (k, jcsRender v) :: jcsRenderFields rest

end

/-! ## Key material model (`ssi-jwk/src/lib.rs`) -/

/-- `Base64urlUInt(Vec<u8>)`: a big-endian unsigned integer carried as bytes,
serialized in base64url without padding. -/
structure Base64urlUInt where
  bytes : List Nat
  deriving DecidableEq

/-- `ECParams`: elliptic-curve JWK parameters.  `ecc_private_key` is the
optional private scalar (`d`). -/
structure ECParams where
  curve : String
  x_coordinate : Base64urlUInt
  y_coordinate : Base64urlUInt
  ecc_private_key : Option Base64urlUInt
  deriving DecidableEq

/-- `Params`: key parameters discriminated by `kty` (only `EC` is modeled). -/
inductive Params where
  | EC (p : ECParams) : Params
  deriving DecidableEq

/-- `JWK { params: Params }` with `#[serde(flatten)]`. -/
structure JWK where
  params : Params
  deriving DecidableEq

/-- `serde_json::to_value` of a `JWK`: `params` flattened, tagged
`"kty"`, field renames `crv`/`x`/`y`/`d`, `d` skipped when `None`,
`Base64urlUInt` rendered base64url without padding.  Fields appear in
ascending key order as in the resulting `BTreeMap`. -/
def jwkToJson (jwk : JWK) : Json :=
  match jwk.params with
  | .EC p =>
    .obj ([("crv", .str p.curve)] ++
      (match p.ecc_private_key with
       | some d => [("d", .str (base64urlNoPad d.bytes))]
       | none => []) ++
      [("kty", .str "EC"),
       ("x", .str (base64urlNoPad p.x_coordinate.bytes)),
       ("y", .str (base64urlNoPad p.y_coordinate.bytes))])

/-! ## did-ion data model (`did-ion/src/sidetree.rs`) -/

/-- `MULTIHASH_SHA2_256_PREFIX`: multihash code for sha2-256. -/
def MULTIHASH_SHA2_256_PREFIX : List Nat := [0x12]

/-- `MULTIHASH_SHA2_256_SIZE`: sha2-256 digest length. -/
def MULTIHASH_SHA2_256_SIZE : List Nat := [0x20]

/-- `PublicKeyJwk { jwk: Value }`: the commitment-ready wrapper around a
JWK's JSON value.  Equality is structural (derived `PartialEq`). -/
structure PublicKeyJwk where
  jwk : Json
  deriving DecidableEq

/-- Serialization of `PublicKeyJwk` (derived, single field `jwk`). -/
def PublicKeyJwk.toJson (pk : PublicKeyJwk) : Json := .obj [("jwk", pk.jwk)]

/-- Deserialization of `PublicKeyJwk` (derived: requires a `jwk` field). -/
def PublicKeyJwk.fromJson : Json → Option PublicKeyJwk
  | .obj fields =>
    match Json.lookupField fields "jwk" with
    | some v => some ⟨v⟩
    | none => none
  | _ => none

/-- `PublicKeyJwkFromJWKError` (`did-ion/src/error.rs`). -/
inductive PublicKeyJwkFromJWKError where
  | ToValue (msg : String) : PublicKeyJwkFromJWKError
  | PrivateKeyParameters : PublicKeyJwkFromJWKError
  deriving DecidableEq

/-- `impl TryFrom<JWK> for PublicKeyJwk`: converts the JWK to its JSON value.
In the source the check rejecting a private-key parameter `d` is commented
out, and `serde_json::to_value` cannot fail on a `JWK`, so the conversion
always succeeds and passes private material through unchanged. -/
def PublicKeyJwk.try_from (jwk : JWK) : Except PublicKeyJwkFromJWKError PublicKeyJwk :=
  .ok ⟨jwkToJson jwk⟩

/-- Modelled from the spec: `VerificationRelationship` is imported from
`ssi_dids` but its definition is not under `src/`; the spec's patch model
carries the five DID Core verification relationships used by
`PublicKeyEntry::try_from`. -/
inductive VerificationRelationship where
  | Authentication
  | AssertionMethod
  | KeyAgreement
  | CapabilityInvocation
  | CapabilityDelegation
  deriving DecidableEq

/-- Serialization of a verification relationship (DID Core camelCase term). -/
def VerificationRelationship.toJson : VerificationRelationship → Json
  | .Authentication => .str "authentication"
  | .AssertionMethod => .str "assertionMethod"
  | .KeyAgreement => .str "keyAgreement"
  | .CapabilityInvocation => .str "capabilityInvocation"
  | .CapabilityDelegation => .str "capabilityDelegation"

/-- Deserialization of a verification relationship. -/
def VerificationRelationship.fromJson : Json → Option VerificationRelationship
  | .str "authentication" => some .Authentication
  | .str "assertionMethod" => some .AssertionMethod
  | .str "keyAgreement" => some .KeyAgreement
  | .str "capabilityInvocation" => some .CapabilityInvocation
  | .str "capabilityDelegation" => some .CapabilityDelegation
  | _ => none

/-- Modelled from the spec: `ServiceEndpoint` is imported from `ssi_dids`
but its definition is not under `src/`; per the spec a service endpoint is
a "Service endpoint URL or object". -/
inductive ServiceEndpoint where
  | URI (uri : String) : ServiceEndpoint
  | Map (fields : List (String × Json)) : ServiceEndpoint
  deriving DecidableEq

/-- Serialization of a service endpoint: a JSON string or object. -/
def ServiceEndpoint.toJson : ServiceEndpoint → Json
  | .URI uri => .str uri
  | .Map fields => .obj fields

/-- Deserialization of a service endpoint. -/
def ServiceEndpoint.fromJson : Json → Option ServiceEndpoint
  | .str uri => some (.URI uri)
  | .obj fields => some (.Map fields)
  | _ => none

/-- `PublicKey`: `publicKeyJwk` or `publicKeyMultibase` (externally tagged,
camelCase variant names). -/
inductive PublicKey where
  | PublicKeyJwk (pk : PublicKeyJwk) : PublicKey
  | PublicKeyMultibase (s : String) : PublicKey
  deriving DecidableEq

/-- The object fields contributed by a flattened `PublicKey`. -/
def PublicKey.toFields : PublicKey → List (String × Json)
  | .PublicKeyJwk pk => [("publicKeyJwk", pk.toJson)]
  | .PublicKeyMultibase s => [("publicKeyMultibase", .str s)]

/-- Recover a flattened `PublicKey` from an entry's object fields. -/
def PublicKey.fromFields (fields : List (String × Json)) : Option PublicKey :=
  match Json.lookupField fields "publicKeyJwk" with
  | some v =>
    match PublicKeyJwk.fromJson v with
    | some pk => some (.PublicKeyJwk pk)
    | none => none
  | none =>
    match Json.lookupField fields "publicKeyMultibase" with
    | some (.str s) => some (.PublicKeyMultibase s)
    | _ => none

/-- `PublicKeyEntry`: a verification-method entry for `add-public-keys` and
`replace` patches (camelCase fields, `controller` skipped when `None`,
`public_key` flattened). -/
structure PublicKeyEntry where
  id : String
  type : String
  controller : Option String
  public_key : PublicKey
  purposes : List VerificationRelationship
  deriving DecidableEq

/-- Serialization of a `PublicKeyEntry` (fields in ascending key order, as
`serde_json::to_value` yields a `BTreeMap`-backed object). -/
def PublicKeyEntry.toJson (e : PublicKeyEntry) : Json :=
  .obj ((match e.controller with
         | some c => [("controller", Json.str c)]
         | none => []) ++
        [("id", Json.str e.id)] ++
        e.public_key.toFields ++
        [("purposes", Json.arr (e.purposes.map VerificationRelationship.toJson)),
         ("type", Json.str e.type)])

/-- Parse every element of a JSON array with `f` (`serde` sequence
deserialization). -/
def parseListWith (f : Json → Option α) : List Json → Option (List α)
  | [] => some []
  | x :: rest =>
    match f x with
    | some a =>
      match parseListWith f rest with
      | some as_ => some (a :: as_)
      | none => none
    | none => none

/-- Deserialization of a `PublicKeyEntry`. -/
def PublicKeyEntry.fromJson : Json → Option PublicKeyEntry
  | .obj fields =>
    match Json.lookupField fields "id" with
    | some (.str id) =>
      match Json.lookupField fields "type" with
      | some (.str ty) =>
        let controller :=
          match Json.lookupField fields "controller" with
          | some (.str c) => some c
          | _ => none
        match PublicKey.fromFields fields with
        | some pk =>
          match Json.lookupField fields "purposes" with
          | some (.arr ps) =>
            match parseListWith VerificationRelationship.fromJson ps with
            | some purposes => some ⟨id, ty, controller, pk, purposes⟩
            | none => none
          | _ => none
        | none => none
      | _ => none
    | _ => none
  | _ => none

/-- `ServiceEndpointEntry`: a service entry for `add-services` and `replace`
patches (camelCase fields). -/
structure ServiceEndpointEntry where
  id : String
  type : String
  service_endpoint : ServiceEndpoint
  deriving DecidableEq

/-- Serialization of a `ServiceEndpointEntry`. -/
def ServiceEndpointEntry.toJson (e : ServiceEndpointEntry) : Json :=
  .obj [("id", .str e.id),
        ("serviceEndpoint", e.service_endpoint.toJson),
        ("type", .str e.type)]

/-- Deserialization of a `ServiceEndpointEntry`. -/
def ServiceEndpointEntry.fromJson : Json → Option ServiceEndpointEntry
  | .obj fields =>
    match Json.lookupField fields "id" with
    | some (.str id) =>
      match Json.lookupField fields "type" with
      | some (.str ty) =>
        match Json.lookupField fields "serviceEndpoint" with
        | some se =>
          match ServiceEndpoint.fromJson se with
          | some endp => some ⟨id, ty, endp⟩
          | none => none
        | none => none
      | _ => none
    | _ => none
  | _ => none

/-- `DocumentState`: full DID PKI state for the `replace` patch (camelCase,
both fields skipped when `None`). -/
structure DocumentState where
  public_keys : Option (List PublicKeyEntry)
  services : Option (List ServiceEndpointEntry)
  deriving DecidableEq

/-- Serialization of a `DocumentState`. -/
def DocumentState.toJson (d : DocumentState) : Json :=
  .obj ((match d.public_keys with
         | some ks => [("publicKeys", Json.arr (ks.map PublicKeyEntry.toJson))]
         | none => []) ++
        (match d.services with
         | some ss => [("services", Json.arr (ss.map ServiceEndpointEntry.toJson))]
         | none => []))

/-- Deserialization of a `DocumentState`. -/
def DocumentState.fromJson : Json → Option DocumentState
  | .obj fields =>
    let pks :=
      match Json.lookupField fields "publicKeys" with
      | some (.arr ks) => (parseListWith PublicKeyEntry.fromJson ks).map some
      | some _ => none
      | none => some none
    let svcs :=
      match Json.lookupField fields "services" with
      | some (.arr ss) => (parseListWith ServiceEndpointEntry.fromJson ss).map some
      | some _ => none
      | none => some none
    match pks with
    | some pkOpt =>
      match svcs with
      | some svcOpt => some ⟨pkOpt, svcOpt⟩
      | none => none
    | none => none
  | _ => none

/-! ## RFC 6902 patches (the `json_patch` crate)

External collaborator consumed by `DIDStatePatch::IetfJsonPatch`:
`json_patch::Patch` is a transparent wrapper around a vector of operations,
each internally tagged by `"op"` with lowercase variant names. -/

/-- `json_patch::PatchOperation`. -/
inductive PatchOperation where
  | Add (path : String) (value : Json) : PatchOperation
  | Remove (path : String) : PatchOperation
  | Replace (path : String) (value : Json) : PatchOperation
  | Move (fromPath : String) (path : String) : PatchOperation
  | Copy (fromPath : String) (path : String) : PatchOperation
  | Test (path : String) (value : Json) : PatchOperation
  deriving DecidableEq

/-- Serialization of a patch operation (tag `"op"`, lowercase; `from` for
move/copy sources; ascending key order). -/
def PatchOperation.toJson : PatchOperation → Json
  | .Add path value => .obj [("op", .str "add"), ("path", .str path), ("value", value)]
  | .Remove path => .obj [("op", .str "remove"), ("path", .str path)]
  | .Replace path value => .obj [("op", .str "replace"), ("path", .str path), ("value", value)]
  | .Move f path => .obj [("from", .str f), ("op", .str "move"), ("path", .str path)]
  | .Copy f path => .obj [("from", .str f), ("op", .str "copy"), ("path", .str path)]
  | .Test path value => .obj [("op", .str "test"), ("path", .str path), ("value", value)]

/-- Deserialization of a patch operation. -/
def PatchOperation.fromJson : Json → Option PatchOperation
  | .obj fields =>
    match Json.lookupField fields "op" with
    | some (.str tag) =>
      match Json.lookupField fields "path" with
      | some (.str path) =>
        if tag = "add" then
          match Json.lookupField fields "value" with
          | some v => some (.Add path v)
          | none => none
        else if tag = "remove" then some (.Remove path)
        else if tag = "replace" then
          match Json.lookupField fields "value" with
          | some v => some (.Replace path v)
          | none => none
        else if tag = "move" then
          match Json.lookupField fields "from" with
          | some (.str f) => some (.Move f path)
          | _ => none
        else if tag = "copy" then
          match Json.lookupField fields "from" with
          | some (.str f) => some (.Copy f path)
          | _ => none
        else if tag = "test" then
          match Json.lookupField fields "value" with
          | some v => some (.Test path v)
          | none => none
        else none
      | _ => none
    | _ => none
  | _ => none

/-- `json_patch::Patch` (transparent: serializes as the operation array). -/
structure Patch where
  ops : List PatchOperation
  deriving DecidableEq

/-- Serialization of a `Patch`. -/
def Patch.toJson (p : Patch) : Json := .arr (p.ops.map PatchOperation.toJson)

/-- Deserialization of a `Patch`. -/
def Patch.fromJson : Json → Option Patch
  | .arr xs =>
    match parseListWith PatchOperation.fromJson xs with
    | some ops => some ⟨ops⟩
    | none => none
  | _ => none

/-! ## DID state patches (`did-ion/src/sidetree.rs`) -/

/-- `DIDStatePatch`: the six Sidetree patch actions, tagged by `"action"` in
kebab-case. -/
inductive DIDStatePatch where
  | AddPublicKeys (public_keys : List PublicKeyEntry) : DIDStatePatch
  | RemovePublicKeys (ids : List String) : DIDStatePatch
  | AddServices (services : List ServiceEndpointEntry) : DIDStatePatch
  | RemoveServices (ids : List String) : DIDStatePatch
  | Replace (document : DocumentState) : DIDStatePatch
  | IetfJsonPatch (patches : Patch) : DIDStatePatch
  deriving DecidableEq

/-- Serialization of a `DIDStatePatch` (internally tagged `"action"`,
kebab-case variant names, `publicKeys` field rename). -/
def DIDStatePatch.toJson : DIDStatePatch → Json
  | .AddPublicKeys public_keys =>
    .obj [("action", .str "add-public-keys"),
          ("publicKeys", .arr (public_keys.map PublicKeyEntry.toJson))]
  | .RemovePublicKeys ids =>
    .obj [("action", .str "remove-public-keys"),
          ("ids", .arr (ids.map Json.str))]
  | .AddServices services =>
    .obj [("action", .str "add-services"),
          ("services", .arr (services.map ServiceEndpointEntry.toJson))]
  | .RemoveServices ids =>
    .obj [("action", .str "remove-services"),
          ("ids", .arr (ids.map Json.str))]
  | .Replace document =>
    .obj [("action", .str "replace"), ("document", document.toJson)]
  | .IetfJsonPatch patches =>
    .obj [("action", .str "ietf-json-patch"), ("patches", patches.toJson)]

/-- Parse a JSON string. -/
def parseStr : Json → Option String
  | .str s => some s
  | _ => none

/-- Deserialization of a `DIDStatePatch`. -/
def DIDStatePatch.fromJson : Json → Option DIDStatePatch
  | .obj fields =>
    match Json.lookupField fields "action" with
    | some (.str action) =>
      if action = "add-public-keys" then
        match Json.lookupField fields "publicKeys" with
        | some (.arr ks) =>
          match parseListWith PublicKeyEntry.fromJson ks with
          | some entries => some (.AddPublicKeys entries)
          | none => none
        | _ => none
      else if action = "remove-public-keys" then
        match Json.lookupField fields "ids" with
        | some (.arr xs) =>
          match parseListWith parseStr xs with
          | some ids => some (.RemovePublicKeys ids)
          | none => none
        | _ => none
      else if action = "add-services" then
        match Json.lookupField fields "services" with
        | some (.arr ss) =>
          match parseListWith ServiceEndpointEntry.fromJson ss with
          | some entries => some (.AddServices entries)
          | none => none
        | _ => none
      else if action = "remove-services" then
        match Json.lookupField fields "ids" with
        | some (.arr xs) =>
          match parseListWith parseStr xs with
          | some ids => some (.RemoveServices ids)
          | none => none
        | _ => none
      else if action = "replace" then
        match Json.lookupField fields "document" with
        | some d =>
          match DocumentState.fromJson d with
          | some doc => some (.Replace doc)
          | none => none
        | none => none
      else if action = "ietf-json-patch" then
        match Json.lookupField fields "patches" with
        | some p =>
          match Patch.fromJson p with
          | some patch => some (.IetfJsonPatch patch)
          | none => none
        | none => none
      else none
    | _ => none
  | _ => none

/-! ## Delta, suffix data and the Create operation -/

/-- `Delta { patches, update_commitment }` (camelCase). -/
structure Delta where
  patches : List DIDStatePatch
  update_commitment : String
  deriving DecidableEq

/-- Serialization of a `Delta`. -/
def Delta.toJson (d : Delta) : Json :=
  .obj [("patches", .arr (d.patches.map DIDStatePatch.toJson)),
        ("updateCommitment", .str d.update_commitment)]

/-- Deserialization of a `Delta`. -/
def Delta.fromJson : Json → Option Delta
  | .obj fields =>
    match Json.lookupField fields "patches" with
    | some (.arr ps) =>
      match parseListWith DIDStatePatch.fromJson ps with
      | some patches =>
        match Json.lookupField fields "updateCommitment" with
        | some (.str uc) => some ⟨patches, uc⟩
        | _ => none
      | none => none
    | _ => none
  | _ => none

/-- `SuffixData { type, delta_hash, recovery_commitment, anchor_origin }`
(camelCase; `type` and `anchorOrigin` skipped when `None`). -/
structure SuffixData where
  type : Option String
  delta_hash : String
  recovery_commitment : String
  anchor_origin : Option String
  deriving DecidableEq

/-- Serialization of a `SuffixData` (ascending key order). -/
def SuffixData.toJson (s : SuffixData) : Json :=
  .obj ((match s.anchor_origin with
         | some a => [("anchorOrigin", Json.str a)]
         | none => []) ++
        [("deltaHash", Json.str s.delta_hash),
         ("recoveryCommitment", Json.str s.recovery_commitment)] ++
        (match s.type with
         | some t => [("type", Json.str t)]
         | none => []))

/-- Deserialization of a `SuffixData`. -/
def SuffixData.fromJson : Json → Option SuffixData
  | .obj fields =>
    match Json.lookupField fields "deltaHash" with
    | some (.str dh) =>
      match Json.lookupField fields "recoveryCommitment" with
      | some (.str rc) =>
        let ty :=
          match Json.lookupField fields "type" with
          | some (.str t) => some t
          | _ => none
        let anchor :=
          match Json.lookupField fields "anchorOrigin" with
          | some (.str a) => some a
          | _ => none
        some ⟨ty, dh, rc, anchor⟩
      | _ => none
    | _ => none
  | _ => none

/-- `CreateOperation { delta, suffix_data }` (camelCase). -/
structure CreateOperation where
  delta : Delta
  suffix_data : SuffixData
  deriving DecidableEq

/-- Serialization of a `CreateOperation`. -/
def CreateOperation.toJson (op : CreateOperation) : Json :=
  .obj [("delta", op.delta.toJson), ("suffixData", op.suffix_data.toJson)]

/-- Deserialization of a `CreateOperation`. -/
def CreateOperation.fromJson : Json → Option CreateOperation
  | .obj fields =>
    match Json.lookupField fields "delta" with
    | some d =>
      match Delta.fromJson d with
      | some delta =>
        match Json.lookupField fields "suffixData" with
        | some sd =>
          match SuffixData.fromJson sd with
          | some suffix_data => some ⟨delta, suffix_data⟩
          | none => none
        | none => none
      | none => none
    | none => none
  | _ => none

/-- `Operation`: the Sidetree operation sum (only Create is implemented),
internally tagged `"type"` with camelCase variant names. -/
inductive Operation where
  | Create (op : CreateOperation) : Operation
  deriving DecidableEq

/-- Serialization of an `Operation`: the `CreateOperation` fields with the
`"type"` tag merged in (ascending key order puts the tag last). -/
def Operation.toJson : Operation → Json
  | .Create op =>
    .obj [("delta", op.delta.toJson), ("suffixData", op.suffix_data.toJson),
          ("type", .str "create")]

/-! ## The `Sidetree` trait's default implementations
(`did-ion/src/sidetree.rs`) -/

namespace Sidetree

/-- `JSON_CANONICALIZATION_SCHEME`: `serde_jcs::to_string`.  In the embedding
canonicalization is total (every `Json` value has string keys), so the
`Result` is dropped. -/
def json_canonicalization_scheme (value : Json) : String := jcsRender value

/-- `hash_protocol_algorithm`: SHA-256 with its 2-byte multihash prefix;
returns `(prefix, hash)`. -/
def hash_protocol_algorithm (data : List Nat) : List Nat × List Nat :=
  (MULTIHASH_SHA2_256_PREFIX ++ MULTIHASH_SHA2_256_SIZE, sha256 data)

/-- `HASH_PROTOCOL`: the concatenation of the prefix and hash from
`hash_protocol_algorithm`. -/
def hash_protocol (data : List Nat) : List Nat :=
  (hash_protocol_algorithm data).1 ++ (hash_protocol_algorithm data).2

/-- `HASH_ALGORITHM`: the hash from `hash_protocol_algorithm`, prefix
discarded. -/
def hash_algorithm (data : List Nat) : List Nat :=
  (hash_protocol_algorithm data).2

/-- `DATA_ENCODING_SCHEME`: base64url without padding. -/
def data_encoding_scheme (data : List Nat) : String := base64urlNoPad data

/-- `hash`: hash with `hash_protocol`, then encode with
`data_encoding_scheme`. -/
def hash (data : List Nat) : String := data_encoding_scheme (hash_protocol data)

/-- `commitment_scheme`: canonicalize the `PublicKeyJwk`, hash the canonical
bytes with `hash_algorithm` (the reveal value), then `hash` the reveal
value. -/
def commitment_scheme (pkjwk : PublicKeyJwk) : String :=
  let canonicalized_public_key := json_canonicalization_scheme pkjwk.toJson
  let reveal_value := hash_algorithm (utf8Bytes canonicalized_public_key)
  hash reveal_value

/-- `create_existing(update_pk, recovery_pk, patches)`: the Sidetree Create
operation assembler.  `ensure!` failures are string errors (`anyhow`). -/
def create_existing (update_pk recovery_pk : PublicKeyJwk)
    (patches : List DIDStatePatch) : Except String Operation :=
  if update_pk = recovery_pk then
    .error "Update and recovery public key JWK payload must be different."
  else
    let update_commitment := commitment_scheme update_pk
    let delta : Delta := { patches := patches, update_commitment := update_commitment }
    let delta_string := json_canonicalization_scheme delta.toJson
    let delta_hash := hash (utf8Bytes delta_string)
    let recovery_commitment := commitment_scheme recovery_pk
    let suffix_data : SuffixData :=
      { type := none, delta_hash := delta_hash,
        recovery_commitment := recovery_commitment, anchor_origin := none }
    .ok (.Create { delta := delta, suffix_data := suffix_data })

end Sidetree

/-! ## DID method contract (`ssi-dids/src/lib.rs`) -/

/-- `DIDCreate`: the create request.  `options` is a
`BTreeMap<String, Value>`, modelled as its entry list in ascending key
order, so `options.keys().next()` is the head's key. -/
structure DIDCreate where
  update_key : Option JWK
  recovery_key : Option JWK
  verification_key : Option JWK
  options : List (String × Json)

/-- `DIDMethodTransaction { did_method, value }`. -/
structure DIDMethodTransaction where
  did_method : String
  value : Json
  deriving DecidableEq

/-- `DIDMethodError`: not-implemented, unsupported option, or a wrapped
`anyhow` error (modelled by its message). -/
inductive DIDMethodError where
  | NotImplemented (what : String) : DIDMethodError
  | OptionNotSupported (operation : String) (option : String) : DIDMethodError
  | Other (msg : String) : DIDMethodError
  deriving DecidableEq

/-- The default body of `DIDMethod::create`: fails with the stable
not-implemented error kind. -/
def didMethodDefaultCreate : DIDCreate → Except DIDMethodError DIDMethodTransaction :=
  fun _ => .error (.NotImplemented "Create operation")

/-- The `DIDMethod` trait: `name` is required; `create` defaults to
`didMethodDefaultCreate`.  These two are the trait's only operations. -/
structure DIDMethod where
  name : String
  create : DIDCreate → Except DIDMethodError DIDMethodTransaction := didMethodDefaultCreate

/-- The operations declared by the `DIDMethod` trait, in source order. -/
def didMethodTraitItems : List String := ["name", "create"]

/-! ## Sidetree client (`did-ion/src/client.rs`) -/

/-- `new_did_state(update_key, recovery_key)`: requires both keys and
converts each to a `PublicKeyJwk`.  Error strings carry the `anyhow`
message (context prefixes elided to the innermost message, which is what
identifies the failure). -/
def new_did_state (update_key recovery_key : Option JWK) :
    Except String (PublicKeyJwk × PublicKeyJwk) :=
  match update_key with
  | none => .error "Missing required update key"
  | some uk =>
    match recovery_key with
    | none => .error "Missing required recovery key"
    | some rk =>
      match PublicKeyJwk.try_from uk with
      | .error _ => .error "Convert update key"
      | .ok update_pk =>
        match PublicKeyJwk.try_from rk with
        | .error _ => .error "Convert recovery key"
        | .ok recovery_pk => .ok (update_pk, recovery_pk)

namespace SidetreeClient

/-- `operation_to_transaction`: wrap the serialized operation in the
`{"sidetreeOperation": …}` envelope tagged with `S::METHOD` (passed here as
the `METHOD` argument, since the trait constant is abstract). -/
def operation_to_transaction (METHOD : String) (op : Operation) : DIDMethodTransaction :=
  { did_method := METHOD,
    value := .obj [("sidetreeOperation", op.toJson)] }

/-- `SidetreeClient::create`: reject any option (the first `options` key, as
iterated by the `BTreeMap`), prepare the keys, assemble the operation, and
wrap it in a transaction.  In the source the `patches` argument of
`create_existing` is commented out (`/*,patches*/`); the embedding passes
the empty patch list.  `.context(…)` error wrapping is modelled by the
context message. -/
def create (METHOD : String) (request : DIDCreate) :
    Except DIDMethodError DIDMethodTransaction :=
  match request.options.head? with
  | some (opt, _) => .error (.OptionNotSupported "create" opt)
  | none =>
    match new_did_state request.update_key request.recovery_key with
    | .error e => .error (.Other ("Prepare keys for DID creation: " ++ e))
    | .ok (update_pk, recovery_pk) =>
      match Sidetree.create_existing update_pk recovery_pk [] with
      | .error e => .error (.Other ("Construct Create operation: " ++ e))
      | .ok operation => .ok (operation_to_transaction METHOD operation)

end SidetreeClient

/-! ## `DIDIon` (`did-ion/src/lib.rs`) -/

namespace DIDIon

/-- `DIDIon`'s method name. -/
def name : String := "ion"

/-- `DIDIon::create`: reject any option; otherwise return the fixed
transaction `{ did_method: "did:ion", value: null }`, ignoring all keys. -/
def create (request : DIDCreate) : Except DIDMethodError DIDMethodTransaction :=
  match request.options.head? with
  | some (opt, _) => .error (.OptionNotSupported "create" opt)
  | none => .ok { did_method := "did:ion", value := .null }

end DIDIon

/-! ## CLI option folding (`cli/src/did.rs`, duplicated in `cli/src/main.rs`) -/

/-- `MetadataProperty { name, value }` (the `cli/src/did.rs` variant, whose
value is a `serde_json::Value`). -/
structure MetadataProperty where
  name : String
  value : Json
  deriving DecidableEq

/-- The `Entry::Occupied` arm of `metadata_properties_to_value`: `Null` is
replaced, an `Array` is pushed to, anything else becomes a two-element
array. -/
def entryMerge (old value : Json) : Json :=
  match old with
  | .null => value
  | .arr elems => .arr (elems ++ [value])
  | other => .arr [other, value]

/-- Replace the value of the first entry under `name`
(`Entry::Occupied`'s in-place mutation of the map's single entry for the
key). -/
def updateFirst : List (String × Json) → String → Json → List (String × Json)
  | [], _, _ => []
  | (k, v) :: rest, name, nv =>
    if k = name then (k, nv) :: rest
    else (k, v) :: updateFirst rest name nv

/-- One `map.entry(name)` step: vacant inserts, occupied merges with
`entryMerge`.  The `serde_json::Map` is modelled as a keyed list (new keys
append; the `BTreeMap`'s key order does not affect lookups). -/
def mapEntryStep (m : List (String × Json)) (name : String) (value : Json) :
    List (String × Json) :=
  match Json.lookupField m name with
  | some old => updateFirst m name (entryMerge old value)
  | none => m ++ [(name, value)]

/-- `metadata_properties_to_value`: fold the ordered option pairs into one
JSON object (total: `serde_json::to_value` on a `Value` is the identity). -/
def metadata_properties_to_value (meta_props : List MetadataProperty) : Json :=
  .obj (meta_props.foldl (fun m prop => mapEntryStep m prop.name prop.value) [])

/-! ## Auxiliary definitions used by the verification statements -/

/-- Does `cs` start with `pat`? -/
def charsStartWith : List Char → List Char → Bool
  | _, [] => true
  | [], _ :: _ => false
  | c :: cs, p :: ps => c == p && charsStartWith cs ps

/-- Does `cs` contain `pat` as a contiguous run? -/
def charsContain : List Char → List Char → Bool
  | [], pat => pat.isEmpty
  | c :: cs, pat => charsStartWith (c :: cs) pat || charsContain cs pat

/-- Substring test on strings. -/
def strContains (s pat : String) : Bool := charsContain s.data pat.data

/-- The values carried by option pairs under a given name, in order. -/
def optionValuesOf (name : String) : List MetadataProperty → List Json
  | [] => []
  | p :: rest =>
    if p.name = name then p.value :: optionValuesOf name rest
    else optionValuesOf name rest

/-- Fold a run of values into an accumulated entry with `entryMerge`,
starting from an optional existing entry. -/
def mergeFrom : Option Json → List Json → Option Json
  | acc, [] => acc
  | none, v :: vs => mergeFrom (some v) vs
  | some old, v :: vs => mergeFrom (some (entryMerge old v)) vs

/-- A sample secp256k1-shaped public key JWK value. -/
def pkExampleA : PublicKeyJwk :=
  ⟨.obj [("crv", .str "secp256k1"), ("kty", .str "EC"),
         ("x", .str "AQ"), ("y", .str "Ag")]⟩

/-- A second sample public key JWK value, differing from `pkExampleA` in
its `y` coordinate. -/
def pkExampleB : PublicKeyJwk :=
  ⟨.obj [("crv", .str "secp256k1"), ("kty", .str "EC"),
         ("x", .str "AQ"), ("y", .str "Aw")]⟩

/-- EC parameters carrying a private scalar `d`. -/
def ecParamsWithPrivate : ECParams :=
  { curve := "secp256k1", x_coordinate := ⟨[1]⟩, y_coordinate := ⟨[2]⟩,
    ecc_private_key := some ⟨[3]⟩ }

/-- A JWK holding a private scalar. -/
def jwkWithPrivate : JWK := { params := .EC ecParamsWithPrivate }

/-- A JWK holding no private scalar. -/
def jwkPublicOnly : JWK :=
  { params := .EC { curve := "secp256k1", x_coordinate := ⟨[4]⟩,
                    y_coordinate := ⟨[5]⟩, ecc_private_key := none } }

/-- A create request carrying one method option. -/
def reqWithOption : DIDCreate :=
  { update_key := none, recovery_key := none, verification_key := none,
    options := [("network", .str "mainnet")] }

/-- A create request with an empty option map. -/
def reqNoOptions : DIDCreate :=
  { update_key := none, recovery_key := none, verification_key := none,
    options := [] }

/-- Option pairs in which the name `x` occurs exactly once. -/
def propsSingle : List MetadataProperty := [⟨"x", .str "a"⟩, ⟨"y", .str "b"⟩]

/-- Option pairs in which the name `x` occurs three times. -/
def propsTriple : List MetadataProperty :=
  [⟨"x", .str "a"⟩, ⟨"x", .str "b"⟩, ⟨"x", .str "c"⟩]

/-- Option pairs whose first value under `a` is itself an array. -/
def propsArrayFirst : List MetadataProperty := [⟨"a", .arr []⟩, ⟨"a", .bool true⟩]

/-! ## Claim theorems -/

/-- C1: for structurally distinct update and recovery keys and any patch
list, `create_existing` returns `Ok` of a Create operation whose
`delta.patches` is the given list, whose `delta.update_commitment` is
`commitment_scheme(update_pk)`, whose `suffix_data.delta_hash` is the hash
of the canonicalized `Delta`, whose `suffix_data.recovery_commitment` is
`commitment_scheme(recovery_pk)`, and whose suffix-data `type` and
`anchor_origin` are absent. -/
theorem create_existing_builds_operation (update_pk recovery_pk : PublicKeyJwk)
    (patches : List DIDStatePatch) (h : update_pk ≠ recovery_pk) :
    Sidetree.create_existing update_pk recovery_pk patches =
      .ok (.Create
        { delta :=
            { patches := patches,
              update_commitment := Sidetree.commitment_scheme update_pk },
          suffix_data :=
            { type := none,
              delta_hash := Sidetree.hash (utf8Bytes
                (Sidetree.json_canonicalization_scheme
                  (Delta.toJson
                    { patches := patches,
                      update_commitment := Sidetree.commitment_scheme update_pk }))),
              recovery_commitment := Sidetree.commitment_scheme recovery_pk,
              anchor_origin := none } }) := by
  simp only [Sidetree.create_existing, if_neg h]

/-- Witness for C1 at concrete distinct keys and the empty patch list. -/
theorem create_existing_builds_operation_witness :
    pkExampleA ≠ pkExampleB ∧
    Sidetree.create_existing pkExampleA pkExampleB [] =
      .ok (.Create
        { delta :=
            { patches := [],
              update_commitment := Sidetree.commitment_scheme pkExampleA },
          suffix_data :=
            { type := none,
              delta_hash := Sidetree.hash (utf8Bytes
                (Sidetree.json_canonicalization_scheme
                  (Delta.toJson
                    { patches := [],
                      update_commitment := Sidetree.commitment_scheme pkExampleA }))),
              recovery_commitment := Sidetree.commitment_scheme pkExampleB,
              anchor_origin := none } }) :=
  ⟨by decide, create_existing_builds_operation pkExampleA pkExampleB [] (by decide)⟩

/-- C2: `create_existing` with structurally equal update and recovery keys
always fails with the "must be different" error and never produces an
operation. -/
theorem create_existing_equal_keys_error (k : PublicKeyJwk)
    (patches : List DIDStatePatch) :
    Sidetree.create_existing k k patches =
      .error "Update and recovery public key JWK payload must be different." ∧
    strContains "Update and recovery public key JWK payload must be different."
      "must be different" = true := by
  exact ⟨by simp [Sidetree.create_existing], by decide⟩

/-- C3: the commitment scheme is the double hash of the canonical JWK bytes:
`commitment_scheme(pk) = hash(hash_algorithm(canonicalize(pk)))`; `hash`
encodes the 0x12 0x20 multihash prefix followed by the SHA-256 digest in
unpadded base64url; and the prefixed and raw accessors derive from the one
shared `hash_protocol_algorithm`. -/
theorem commitment_scheme_double_hash :
    (∀ pk : PublicKeyJwk,
      Sidetree.commitment_scheme pk =
        Sidetree.hash (Sidetree.hash_algorithm
          (utf8Bytes (Sidetree.json_canonicalization_scheme pk.toJson)))) ∧
    (∀ data : List Nat,
      Sidetree.hash data = Sidetree.data_encoding_scheme
        (MULTIHASH_SHA2_256_PREFIX ++ MULTIHASH_SHA2_256_SIZE ++
          Sidetree.hash_algorithm data)) ∧
    (∀ data : List Nat, Sidetree.hash_algorithm data = sha256 data) ∧
    (∀ data : List Nat,
      Sidetree.hash_protocol data =
        (Sidetree.hash_protocol_algorithm data).1 ++
          (Sidetree.hash_protocol_algorithm data).2 ∧
      Sidetree.hash_algorithm data = (Sidetree.hash_protocol_algorithm data).2) ∧
    (∀ pk : PublicKeyJwk,
      Sidetree.commitment_scheme pk =
        base64urlNoPad (0x12 :: 0x20 ::
          sha256 (sha256
            (utf8Bytes (Sidetree.json_canonicalization_scheme pk.toJson))))) :=
  ⟨fun _ => rfl, fun _ => rfl, fun _ => rfl, fun _ => ⟨rfl, rfl⟩, fun _ => rfl⟩

/-- C5 counterexample: `PublicKeyJwk` construction neither strips nor
rejects private material — converting a JWK holding the private scalar
`d = [3]` succeeds and the resulting `PublicKeyJwk` carries `"d"`, also
through the client's `new_did_state` path. -/
theorem publicKeyJwk_keeps_private_scalar :
    PublicKeyJwk.try_from jwkWithPrivate = .ok ⟨jwkToJson jwkWithPrivate⟩ ∧
    Json.getKey (jwkToJson jwkWithPrivate) "d" = some (.str "Aw") ∧
    new_did_state (some jwkWithPrivate) (some jwkPublicOnly) =
      .ok (⟨jwkToJson jwkWithPrivate⟩, ⟨jwkToJson jwkPublicOnly⟩) :=
  ⟨rfl, by decide, rfl⟩

/-- C5 amended: `PublicKeyJwk::try_from` always succeeds and passes the
JWK's JSON value through unchanged (the private-key rejection check is
commented out in the source), so a JWK holding a private scalar yields a
`PublicKeyJwk` that carries the `"d"` field. -/
theorem publicKeyJwk_construction_passthrough :
    (∀ jwk : JWK, PublicKeyJwk.try_from jwk = .ok ⟨jwkToJson jwk⟩) ∧
    (∀ p : ECParams, ∀ d : Base64urlUInt, p.ecc_private_key = some d →
      Json.getKey (jwkToJson ⟨.EC p⟩) "d" =
        some (.str (base64urlNoPad d.bytes))) := by
  refine ⟨fun _ => rfl, fun p d hd => ?_⟩
  simp [jwkToJson, hd, Json.getKey, Json.lookupField]

/-- Witness for C5's amended theorem at a concrete private-key JWK. -/
theorem publicKeyJwk_construction_passthrough_witness :
    ecParamsWithPrivate.ecc_private_key = some ⟨[3]⟩ ∧
    Json.getKey (jwkToJson ⟨.EC ecParamsWithPrivate⟩) "d" =
      some (.str (base64urlNoPad [3])) :=
  ⟨rfl, publicKeyJwk_construction_passthrough.2 ecParamsWithPrivate ⟨[3]⟩ rfl⟩

/-- C7 counterexample: the `DIDMethod` trait declares only `name` and
`create`; it provides no `update`, `recover`, or `deactivate` operation at
all. -/
theorem didMethod_trait_lacks_update_recover_deactivate :
    "update" ∉ didMethodTraitItems ∧
    "recover" ∉ didMethodTraitItems ∧
    "deactivate" ∉ didMethodTraitItems ∧
    didMethodTraitItems = ["name", "create"] :=
  ⟨by decide, by decide, by decide, rfl⟩

/-- C7 amended: the capability contract's only defaulted operation is
`create`, which for every implementation that does not override it fails
with the distinct, stable `NotImplemented` error kind, on which callers can
branch. -/
theorem didMethod_default_create_not_implemented :
    (∀ n : String, ({ name := n } : DIDMethod).create = didMethodDefaultCreate) ∧
    (∀ request : DIDCreate,
      didMethodDefaultCreate request = .error (.NotImplemented "Create operation")) ∧
    (∀ w op o, DIDMethodError.NotImplemented w ≠ .OptionNotSupported op o) ∧
    (∀ w m, DIDMethodError.NotImplemented w ≠ .Other m) :=
  ⟨fun _ => rfl, fun _ => rfl,
   fun _ _ _ h => DIDMethodError.noConfusion h,
   fun _ _ h => DIDMethodError.noConfusion h⟩

/-- C10: with an empty option map, `DIDIon::create` returns `Ok` of the
transaction `{ did_method: "did:ion", value: null }`, whatever the update,
recovery, and verification keys are. -/
theorem didIon_create_constant_transaction (request : DIDCreate)
    (h : request.options = []) :
    DIDIon.create request = .ok { did_method := "did:ion", value := .null } := by
  simp [DIDIon.create, h]

/-- Witness for C10 at a concrete request with no options. -/
theorem didIon_create_constant_transaction_witness :
    reqNoOptions.options = [] ∧
    DIDIon.create reqNoOptions = .ok { did_method := "did:ion", value := .null } :=
  ⟨rfl, didIon_create_constant_transaction reqNoOptions rfl⟩

/-- C4: `SidetreeClient::create` rejects a non-empty option map with
`OptionNotSupported` naming the operation `"create"` and the first
encountered option key, constructing no operation; only an empty option
map gets past this check (with empty options the result is never an
`OptionNotSupported` error). -/
theorem sidetree_client_create_option_rejection (METHOD : String)
    (request : DIDCreate) :
    (∀ k v rest, request.options = (k, v) :: rest →
      SidetreeClient.create METHOD request =
        .error (.OptionNotSupported "create" k)) ∧
    (request.options = [] → ∀ op o,
      SidetreeClient.create METHOD request ≠
        .error (.OptionNotSupported op o)) := by
  constructor
  · intro k v rest h
    simp [SidetreeClient.create, h]
  · intro h op o
    simp only [SidetreeClient.create, h, List.head?]
    cases hnds : new_did_state request.update_key request.recovery_key with
    | error e => simp
    | ok pks =>
      obtain ⟨u, r⟩ := pks
      cases hce : Sidetree.create_existing u r [] with
      | error e => simp [hce]
      | ok operation => simp [hce]

/-- Witness for C4 at a concrete request with one option and a concrete
request with none. -/
theorem sidetree_client_create_option_rejection_witness :
    reqWithOption.options = [("network", Json.str "mainnet")] ∧
    SidetreeClient.create "ion" reqWithOption =
      .error (.OptionNotSupported "create" "network") ∧
    reqNoOptions.options = [] ∧
    SidetreeClient.create "ion" reqNoOptions ≠
      .error (.OptionNotSupported "create" "network") :=
  ⟨rfl,
   (sidetree_client_create_option_rejection "ion" reqWithOption).1
     "network" (Json.str "mainnet") [] rfl,
   rfl,
   (sidetree_client_create_option_rejection "ion" reqNoOptions).2
     rfl "create" "network"⟩


/-- Looking up a key after replacing the entry under `name`. -/
theorem lookupField_updateFirst (m : List (String × Json)) (name key : String)
    (nv : Json) :
    Json.lookupField (updateFirst m name nv) key =
      if key = name then (Json.lookupField m name).map (fun _ => nv)
      else Json.lookupField m key := by
  induction m with
  | nil => simp [updateFirst, Json.lookupField]
  | cons p rest ih =>
    obtain ⟨k, v⟩ := p
    simp only [updateFirst]
    by_cases hkn : k = name
    · subst hkn
      by_cases hkk : k = key
      · subst hkk
        simp [Json.lookupField]
      · rw [if_pos rfl]
        simp [Json.lookupField, hkk, show ¬key = k from fun h => hkk h.symm]
    · by_cases hkk : k = key
      · subst hkk
        rw [if_neg hkn]
        simp [Json.lookupField, hkn]
      · rw [if_neg hkn]
        simp [Json.lookupField, hkn, hkk, ih]

/-- Looking up a key after appending a single new entry. -/
theorem lookupField_append_single (m : List (String × Json)) (n key : String)
    (v : Json) :
    Json.lookupField (m ++ [(n, v)]) key =
      match Json.lookupField m key with
      | some x => some x
      | none => if n = key then some v else none := by
  induction m with
  | nil => simp [Json.lookupField]
  | cons p rest ih =>
    obtain ⟨k, w⟩ := p
    by_cases hkk : k = key
    · simp [Json.lookupField, hkk]
    · simp [Json.lookupField, hkk, ih]

/-- One `map.entry(name)` step, observed through lookups: the entry under
`name` is inserted or merged, every other entry is untouched. -/
theorem lookupField_mapEntryStep (m : List (String × Json)) (n key : String)
    (v : Json) :
    Json.lookupField (mapEntryStep m n v) key =
      if key = n then
        (match Json.lookupField m n with
         | none => some v
         | some old => some (entryMerge old v))
      else Json.lookupField m key := by
  unfold mapEntryStep
  cases h : Json.lookupField m n with
  | some old =>
    rw [lookupField_updateFirst]
    by_cases hk : key = n
    · subst hk
      simp [h]
    · simp [hk]
  | none =>
    rw [lookupField_append_single]
    by_cases hk : key = n
    · subst hk
      simp [h]
    · cases h2 : Json.lookupField m key with
      | some x => simp [hk]
      | none => simp [hk, show ¬n = key from fun he => hk he.symm]

/-- Folding the option pairs, observed through lookups: the entry under
`key` is the `entryMerge`-fold of the values carried under `key`. -/
theorem foldl_mapEntryStep_lookup (props : List MetadataProperty)
    (m : List (String × Json)) (key : String) :
    Json.lookupField
        (props.foldl (fun m prop => mapEntryStep m prop.name prop.value) m) key =
      mergeFrom (Json.lookupField m key) (optionValuesOf key props) := by
  induction props generalizing m with
  | nil => simp [optionValuesOf, mergeFrom]
  | cons p rest ih =>
    simp only [List.foldl, optionValuesOf]
    rw [ih, lookupField_mapEntryStep]
    by_cases hk : key = p.name
    · rw [if_pos hk, if_pos hk.symm, ← hk]
      cases h : Json.lookupField m key with
      | none => simp [mergeFrom]
      | some old => simp [mergeFrom]
    · rw [if_neg hk, if_neg (fun he => hk he.symm)]

/-- `entryMerge`-folding onto an existing array appends each value. -/
theorem mergeFrom_arr (ws : List Json) (xs : List Json) :
    mergeFrom (some (.arr xs)) ws = some (.arr (xs ++ ws)) := by
  induction ws generalizing xs with
  | nil => simp [mergeFrom]
  | cons w ws ih => simp [mergeFrom, entryMerge, ih]

/-- C8 counterexample: when the first value under a repeated name is itself
an array, the fold appends into that array instead of forming a two-element
array of the two values: `[("a", []), ("a", true)]` folds to
`{"a": [true]}`, not `{"a": [[], true]}`. -/
theorem metadata_properties_fold_array_absorbs :
    metadata_properties_to_value propsArrayFirst =
      .obj [("a", .arr [.bool true])] ∧
    metadata_properties_to_value propsArrayFirst ≠
      .obj [("a", .arr [.arr [], .bool true])] :=
  ⟨rfl, by decide⟩

/-- C8 amended: folding the ordered option pairs maps each name occurring
once to its value, and repeated names whose first value is neither `null`
nor an array accumulate into an array: the first two values merge into a
2-element array and each further repeat appends one element.  (When the
first value is an array, later repeats are appended into it; when it is
`null`, the next value replaces it.) -/
theorem metadata_properties_fold_accumulates (props : List MetadataProperty)
    (name : String) :
    (∀ v, optionValuesOf name props = [v] →
      Json.getKey (metadata_properties_to_value props) name = some v) ∧
    (∀ v vs, optionValuesOf name props = v :: vs → vs ≠ [] →
      v ≠ .null → (∀ xs, v ≠ .arr xs) →
      Json.getKey (metadata_properties_to_value props) name =
        some (.arr (v :: vs))) := by
  have hbase : Json.getKey (metadata_properties_to_value props) name =
      mergeFrom none (optionValuesOf name props) := by
    show Json.lookupField
        (props.foldl (fun m prop => mapEntryStep m prop.name prop.value) []) name =
      mergeFrom none (optionValuesOf name props)
    rw [foldl_mapEntryStep_lookup]
    rfl
  constructor
  · intro v hv
    rw [hbase, hv]
    rfl
  · intro v vs hv hne hnull harr
    rw [hbase, hv]
    cases vs with
    | nil => exact absurd rfl hne
    | cons w ws =>
      have hmerge : entryMerge v w = .arr [v, w] := by
        cases v with
        | null => exact absurd rfl hnull
        | arr xs => exact absurd rfl (harr xs)
        | bool b => rfl
        | num n => rfl
        | str s => rfl
        | obj fields => rfl
      show mergeFrom (some (entryMerge v w)) ws = some (.arr (v :: w :: ws))
      rw [hmerge, mergeFrom_arr]
      rfl

/-- Witness for C8's amended theorem: a single occurrence keeps its value,
a triple occurrence folds into a 3-element array. -/
theorem metadata_properties_fold_accumulates_witness :
    optionValuesOf "x" propsSingle = [.str "a"] ∧
    Json.getKey (metadata_properties_to_value propsSingle) "x" =
      some (.str "a") ∧
    optionValuesOf "x" propsTriple = [.str "a", .str "b", .str "c"] ∧
    Json.getKey (metadata_properties_to_value propsTriple) "x" =
      some (.arr [.str "a", .str "b", .str "c"]) :=
  ⟨rfl,
   (metadata_properties_fold_accumulates propsSingle "x").1 (.str "a") rfl,
   rfl,
   (metadata_properties_fold_accumulates propsTriple "x").2 (.str "a")
     [.str "b", .str "c"] rfl (by simp) (by simp) (fun xs h => Json.noConfusion h)⟩

/-- Parsing a mapped list succeeds element-wise. -/
theorem parseListWith_map {α : Type} (f : Json → Option α) (g : α → Json)
    (xs : List α) (h : ∀ x ∈ xs, f (g x) = some x) :
    parseListWith f (xs.map g) = some xs := by
  induction xs with
  | nil => rfl
  | cons x rest ih =>
    simp only [List.map_cons, parseListWith, h x (List.mem_cons_self x rest),
      ih (fun y hy => h y (List.mem_cons_of_mem x hy))]

/-- Verification relationships survive the JSON round trip. -/
theorem verificationRelationship_roundtrip (r : VerificationRelationship) :
    VerificationRelationship.fromJson r.toJson = some r := by
  cases r <;> rfl

/-- `PublicKeyJwk` survives the JSON round trip. -/
theorem publicKeyJwk_roundtrip (pk : PublicKeyJwk) :
    PublicKeyJwk.fromJson pk.toJson = some pk := rfl

/-- A flattened `PublicKey` is recovered from its own fields. -/
theorem publicKey_fields_roundtrip (pk : PublicKey) :
    PublicKey.fromFields pk.toFields = some pk := by
  cases pk <;> rfl

/-- `ServiceEndpoint` survives the JSON round trip. -/
theorem serviceEndpoint_roundtrip (e : ServiceEndpoint) :
    ServiceEndpoint.fromJson e.toJson = some e := by
  cases e <;> rfl

/-- `PublicKeyEntry` survives the JSON round trip. -/
theorem publicKeyEntry_roundtrip (e : PublicKeyEntry) :
    PublicKeyEntry.fromJson e.toJson = some e := by
  obtain ⟨id, ty, controller, pk, purposes⟩ := e
  have hp := parseListWith_map VerificationRelationship.fromJson
    VerificationRelationship.toJson purposes
    (fun r _ => verificationRelationship_roundtrip r)
  cases controller <;> cases pk <;>
    simp [PublicKeyEntry.toJson, PublicKeyEntry.fromJson, PublicKey.toFields,
      PublicKey.fromFields, PublicKeyJwk.toJson, PublicKeyJwk.fromJson,
      Json.lookupField, hp]

/-- `ServiceEndpointEntry` survives the JSON round trip. -/
theorem serviceEndpointEntry_roundtrip (e : ServiceEndpointEntry) :
    ServiceEndpointEntry.fromJson e.toJson = some e := by
  obtain ⟨id, ty, se⟩ := e
  cases se <;>
    simp [ServiceEndpointEntry.toJson, ServiceEndpointEntry.fromJson,
      ServiceEndpoint.toJson, ServiceEndpoint.fromJson, Json.lookupField]

/-- `DocumentState` survives the JSON round trip. -/
theorem documentState_roundtrip (d : DocumentState) :
    DocumentState.fromJson d.toJson = some d := by
  obtain ⟨pks, svcs⟩ := d
  have hk := fun ks => parseListWith_map PublicKeyEntry.fromJson
    PublicKeyEntry.toJson ks (fun e _ => publicKeyEntry_roundtrip e)
  have hs := fun ss => parseListWith_map ServiceEndpointEntry.fromJson
    ServiceEndpointEntry.toJson ss (fun e _ => serviceEndpointEntry_roundtrip e)
  cases pks <;> cases svcs <;>
    simp [DocumentState.toJson, DocumentState.fromJson, Json.lookupField, hk, hs]

/-- `PatchOperation` survives the JSON round trip. -/
theorem patchOperation_roundtrip (op : PatchOperation) :
    PatchOperation.fromJson op.toJson = some op := by
  cases op <;>
    simp [PatchOperation.toJson, PatchOperation.fromJson, Json.lookupField]

/-- `Patch` survives the JSON round trip. -/
theorem patch_roundtrip (p : Patch) : Patch.fromJson p.toJson = some p := by
  obtain ⟨ops⟩ := p
  simp [Patch.toJson, Patch.fromJson,
    parseListWith_map PatchOperation.fromJson PatchOperation.toJson ops
      (fun o _ => patchOperation_roundtrip o)]

/-- `DIDStatePatch` survives the JSON round trip. -/
theorem didStatePatch_roundtrip (p : DIDStatePatch) :
    DIDStatePatch.fromJson p.toJson = some p := by
  cases p with
  | AddPublicKeys public_keys =>
    simp [DIDStatePatch.toJson, DIDStatePatch.fromJson, Json.lookupField,
      parseListWith_map PublicKeyEntry.fromJson PublicKeyEntry.toJson public_keys
        (fun e _ => publicKeyEntry_roundtrip e)]
  | RemovePublicKeys ids =>
    simp [DIDStatePatch.toJson, DIDStatePatch.fromJson, Json.lookupField,
      parseListWith_map parseStr Json.str ids (fun s _ => rfl)]
  | AddServices services =>
    simp [DIDStatePatch.toJson, DIDStatePatch.fromJson, Json.lookupField,
      parseListWith_map ServiceEndpointEntry.fromJson ServiceEndpointEntry.toJson
        services (fun e _ => serviceEndpointEntry_roundtrip e)]
  | RemoveServices ids =>
    simp [DIDStatePatch.toJson, DIDStatePatch.fromJson, Json.lookupField,
      parseListWith_map parseStr Json.str ids (fun s _ => rfl)]
  | Replace document =>
    simp [DIDStatePatch.toJson, DIDStatePatch.fromJson, Json.lookupField,
      documentState_roundtrip document]
  | IetfJsonPatch patches =>
    simp [DIDStatePatch.toJson, DIDStatePatch.fromJson, Json.lookupField,
      patch_roundtrip patches]

/-- `Delta` survives the JSON round trip. -/
theorem delta_roundtrip (d : Delta) : Delta.fromJson d.toJson = some d := by
  obtain ⟨patches, uc⟩ := d
  simp [Delta.toJson, Delta.fromJson, Json.lookupField,
    parseListWith_map DIDStatePatch.fromJson DIDStatePatch.toJson patches
      (fun p _ => didStatePatch_roundtrip p)]

/-- `SuffixData` survives the JSON round trip. -/
theorem suffixData_roundtrip (s : SuffixData) :
    SuffixData.fromJson s.toJson = some s := by
  obtain ⟨ty, dh, rc, anchor⟩ := s
  cases ty <;> cases anchor <;>
    simp [SuffixData.toJson, SuffixData.fromJson, Json.lookupField]

/-- C9: serializing a `CreateOperation` to JSON and parsing the JSON back
yields the original value, for every operation and so in particular for
operations containing each of the six `DIDStatePatch` action variants. -/
theorem createOperation_json_roundtrip (op : CreateOperation) :
    CreateOperation.fromJson op.toJson = some op := by
  obtain ⟨delta, suffix_data⟩ := op
  simp [CreateOperation.toJson, CreateOperation.fromJson, Json.lookupField,
    delta_roundtrip delta, suffixData_roundtrip suffix_data]
